import Mathlib

/-!
Verification development for the cluster measurement and aggregation engine of
`scripts/cluster/clusterbatchanalyzer.py` (class `ClusterBatchAnalyzer`).

The Python source is shallowly embedded: atoms carry an element symbol and a
rational 3D coordinate; the external structure loader, the mendeleev element
table and the scipy convex-hull routine are modelled as injected read-only
collaborators; fallible Python code (raising exceptions) is embedded in
`Except String`; printed diagnostics are collected into explicit string lists.
Machine floats are idealised as exact rationals/reals.

Layout: all definitions first (embedding, then concrete fixtures used by
witnesses), then all theorems.
-/

namespace MDScatter

/-- A 3D coordinate, as parsed from a PDB file (floats idealised as rationals). -/
abbrev Vec3 := ℚ × ℚ × ℚ

/-- An atom as exposed by the external structure loader (`PDBFileHandler`):
element symbol and 3D coordinate. -/
structure Atom where
  element : String
  coordinates : Vec3
deriving DecidableEq, Repr

/-- The parsed structure exposed by the external loader: two disjoint atom
groups, classified by core/shell residue names. -/
structure PDBStruct where
  core_atoms : List Atom
  shell_atoms : List Atom
deriving DecidableEq, Repr

/-- `self.charges`: element symbol ↦ (formal charge, reference coordination
number), supplied at construction (a Python dict, embedded as an
association list with at most one binding per key in use). -/
abbrev Charges := List (String × (ℚ × ℕ))

/-- Squared Euclidean distance between two coordinates
(`np.linalg.norm(a - b) ** 2` expanded coordinatewise). -/
def distSq (p q : Vec3) : ℚ :=
  (p.1 - q.1) ^ 2 + (p.2.1 - q.2.1) ^ 2 + (p.2.2 - q.2.2) ^ 2

/-- `are_connected` (source line 261): the Euclidean distance between the two
atoms is at most `threshold`.  The float comparison
`np.linalg.norm(diff) <= threshold` is embedded equivalently on squares so the
predicate stays executable; `are_connected_iff_sqrt` relates it to the real
square-root formulation. -/
def are_connected (atom1 atom2 : Atom) (threshold : ℚ) : Bool :=
  decide (0 ≤ threshold) && decide (distSq atom1.coordinates atom2.coordinates ≤ threshold ^ 2)

/-- Keep the first occurrence of each value, in order: the key order of a
Python dict populated by repeated insertion. -/
def dedupFirst {α : Type} [DecidableEq α] : List α → List α
  | [] => []
  | a :: as => a :: dedupFirst (as.filter (fun b => b ≠ a))
termination_by l => l.length
decreasing_by
  exact Nat.lt_succ_of_le (List.length_filter_le _ _)

/-- `np.mean` (`[].mean` idealised to `0` via division by zero). -/
def listMean {α : Type} [DivisionRing α] (l : List α) : α := l.sum / l.length

/-- Population variance (the square of `np.std`, which defaults to `ddof=0`). -/
def popVar {α : Type} [DivisionRing α] (l : List α) : α :=
  ((l.map (fun x => (x - listMean l) ^ 2)).sum) / l.length

/-- `np.std` with its default `ddof=0`: the population standard deviation of a
list of exact rationals. -/
noncomputable def popStd (l : List ℚ) : ℝ := Real.sqrt (((popVar l : ℚ) : ℝ))

/-! ### Coordination counter (source lines 226 to 263) -/

/-- The coordination configuration consumed by
`calculate_coordination_numbers`: the configured neighbor element symbols and
the directional (target element, neighbor element) ↦ distance threshold map. -/
structure CoordConfig where
  neighbor_elements : List String
  distance_thresholds : List ((String × String) × ℚ)

/-- The final value of `counts[neighbor]` for one target atom: the inner loop
of `calculate_coordination_numbers` walks every atom of
`core_atoms + shell_atoms` (the target atom itself included) and increments
`counts[other_atom.element]` exactly once for each atom whose element is a
configured neighbor, whose (target element, other element) pair has a
configured threshold, and which is within that threshold. -/
def coord_count (cfg : CoordConfig) (all_atoms : List Atom) (atom : Atom)
    (neighbor : String) : ℕ :=
  all_atoms.countP (fun other_atom =>
    cfg.neighbor_elements.contains other_atom.element &&
    (other_atom.element == neighbor) &&
    (match cfg.distance_thresholds.lookup (atom.element, other_atom.element) with
     | some threshold => are_connected atom other_atom threshold
     | none => false))

/-- The key set of the `coordination_numbers` dict, in insertion order: for
each target atom (outer loop) and each configured neighbor element (the keys
of its `counts` dict), the pair `(atom.element, neighbor)`. -/
def coordination_pairs (cfg : CoordConfig) (target_atoms : List Atom) :
    List (String × String) :=
  dedupFirst (target_atoms.flatMap (fun t => cfg.neighbor_elements.map (fun n => (t.element, n))))

/-- `coordination_numbers[(e, n)]`: the per-target counts appended for the key
`(e, n)`, in target order — one entry per target atom of element `e`. -/
def pair_counts (cfg : CoordConfig) (all_atoms target_atoms : List Atom)
    (p : String × String) : List ℚ :=
  (target_atoms.filter (fun t => t.element == p.1)).map
    (fun t => (coord_count cfg all_atoms t p.2 : ℚ))

/-- `calculate_coordination_numbers` (source lines 226 to 259): for every pair
key, the mean and the `np.std` (population) standard deviation of the
per-target counts.  (The function also returns `None` as a second component in
the source; that component is dropped here.) -/
noncomputable def calculate_coordination_numbers (cfg : CoordConfig)
    (all_atoms target_atoms : List Atom) : List ((String × String) × (ℚ × ℝ)) :=
  (coordination_pairs cfg target_atoms).map (fun p =>
    (p, (listMean (pair_counts cfg all_atoms target_atoms p),
         popStd (pair_counts cfg all_atoms target_atoms p))))

/-- Follows the claim wording of C4 (not the source): the count for one target
atom and one neighbor element over every *other* atom, the target atom itself
excluded. -/
def coord_count_spec (cfg : CoordConfig) (all_atoms : List Atom) (atom : Atom)
    (neighbor : String) : ℕ :=
  (all_atoms.filter (fun other_atom => other_atom ≠ atom)).countP (fun other_atom =>
    cfg.neighbor_elements.contains other_atom.element &&
    (other_atom.element == neighbor) &&
    (match cfg.distance_thresholds.lookup (atom.element, other_atom.element) with
     | some threshold => are_connected atom other_atom threshold
     | none => false))

/-! ### Charge aggregator (source lines 276 to 299) -/

/-- `calculate_cluster_charge`: sum `self.charges.get(atom.element, (0, 0))[0]`
over the core atoms, then over the shell atoms, starting from `0.0`. -/
def calculate_cluster_charge (charges : Charges) (pdb : PDBStruct) : ℚ :=
  let core_total := pdb.core_atoms.foldl
    (fun total atom => total + ((charges.lookup atom.element).getD (0, 0)).1) 0
  pdb.shell_atoms.foldl
    (fun total atom => total + ((charges.lookup atom.element).getD (0, 0)).1) core_total

/-! ### Statistics aggregator (source lines 206 to 223, 779 to 790 and 831 to 862) -/

/-- Insert a natural number into a sorted list, keeping it sorted. -/
def insertSorted (n : ℕ) : List ℕ → List ℕ
  | [] => [n]
  | m :: ms => if n ≤ m then n :: m :: ms else m :: insertSorted n ms

/-- Python `sorted` on a list of natural numbers, as insertion sort. -/
def sortNat (l : List ℕ) : List ℕ := l.foldr insertSorted []

/-- `np.argmax` helper: the first index attaining the maximum, together with
that maximum, or `none` for the empty list. -/
def argmaxAux {α : Type} [LinearOrder α] : List α → Option (ℕ × α)
  | [] => none
  | x :: xs =>
    match argmaxAux xs with
    | none => some (0, x)
    | some (j, m) => if x < m then some (j + 1, m) else some (0, x)

/-- `np.argmax`: the first index attaining the maximum (`0` on `[]`). -/
def argmaxIdx {α : Type} [LinearOrder α] (l : List α) : ℕ :=
  ((argmaxAux l).map (fun p => p.1)).getD 0

/-- The key list of the `cluster_size_distribution` dict built by
`generate_statistics` from `self.cluster_data` (a datum is read through its
`cluster_size` and `volume` fields only): distinct sizes in first-occurrence
order. -/
def cluster_sizes {α : Type} (data : List (ℕ × α)) : List ℕ :=
  dedupFirst (data.map (fun d => d.1))

/-- `cluster_size_distribution[size]`: the volumes collected for one size, in
collection order. -/
def size_bucket {α : Type} (data : List (ℕ × α)) (s : ℕ) : List α :=
  (data.filter (fun d => d.1 == s)).map (fun d => d.2)

/-- `generate_statistics` (source lines 206 to 223):
`average_volumes[size] = np.mean(volumes)`. -/
def average_volumes_per_size {α : Type} [DivisionRing α] (data : List (ℕ × α)) (s : ℕ) : α :=
  listMean (size_bucket data s)

/-- `sizes = sorted(self.cluster_size_distribution.keys())`
(source lines 788 and 848). -/
def sorted_sizes {α : Type} (data : List (ℕ × α)) : List ℕ :=
  sortNat (cluster_sizes data)

/-- `np.std(self.cluster_size_distribution[size])` — the per-size standard
deviations reported next to the average volumes (source line 790). -/
noncomputable def std_dev_per_size (data : List (ℕ × ℝ)) (s : ℕ) : ℝ :=
  Real.sqrt (popVar (size_bucket data s))

/-- `total_cluster_volume` (source lines 842 to 845): sum over every size
bucket of (mean volume × bucket count). -/
def total_cluster_volume {α : Type} [DivisionRing α] (data : List (ℕ × α)) : α :=
  ((cluster_sizes data).map
    (fun s => listMean (size_bucket data s) * ((size_bucket data s).length : α))).sum

/-- The volume fraction φ of one size (source line 1001, and line 854 before
the `* 100`): (mean volume × count) / total. -/
def volume_fraction {α : Type} [DivisionRing α] (data : List (ℕ × α)) (s : ℕ) : α :=
  listMean (size_bucket data s) * ((size_bucket data s).length : α) / total_cluster_volume data

/-- `volume_percentage` for one size (source lines 851 to 857), including the
source's guard on an empty bucket. -/
def volume_percentage {α : Type} [DivisionRing α] (data : List (ℕ × α)) (s : ℕ) : α :=
  if 0 < (size_bucket data s).length then
    listMean (size_bucket data s) * ((size_bucket data s).length : α) /
      total_cluster_volume data * 100
  else 0

/-- `volume_percentages` (source lines 849 to 857), one value per sorted
size. -/
def volume_percentages {α : Type} [DivisionRing α] (data : List (ℕ × α)) : List α :=
  (sorted_sizes data).map (volume_percentage data)

/-- `mode_size = sizes[np.argmax(volume_percentages)]`
(source lines 860 to 861). -/
def mode_size {α : Type} [LinearOrderedField α] (data : List (ℕ × α)) : ℕ :=
  (sorted_sizes data).getD (argmaxIdx (volume_percentages data)) 0

/-! ### Element property table (mendeleev, modelled as an injected provider) -/

/-- One tabulated ionic-radius row of the mendeleev element table: charge,
Roman-numeral coordination label, and radius in picometres. -/
structure IonicRadiusRow where
  charge : ℚ
  coordination : String
  ionic_radius : ℚ
deriving DecidableEq, Repr

/-- The external mendeleev element table, modelled (per the spec's design
notes) as an injected read-only data provider.  `electrons` and
`covalent_radius` return `none` when the underlying database has no datum for
the element. -/
structure ElementData where
  electrons : String → Option ℤ
  ionic_radii : String → List IonicRadiusRow
  covalent_radius : String → Option ℚ

/-- `to_roman` (source lines 368 to 374): numeric coordination number to its
crystallographic Roman-numeral label, `none` outside 1..15. -/
def to_roman (n : ℕ) : Option String :=
  match n with
  | 1 => some "I" | 2 => some "II" | 3 => some "III" | 4 => some "IV" | 5 => some "V"
  | 6 => some "VI" | 7 => some "VII" | 8 => some "VIII" | 9 => some "IX" | 10 => some "X"
  | 11 => some "XI" | 12 => some "XII" | 13 => some "XIII" | 14 => some "XIV" | 15 => some "XV"
  | _ => none

/-! ### Radius-lookup builder (source lines 363 to 435) -/

/-- One value of the `radius_lookup` dict: `ionic_radius` in Å and the sphere
`volume`; both `None` in the explicit-absence case. -/
structure RLEntry where
  ionic_radius : Option ℚ
  volume : Option ℝ

/-- The `radius_lookup` dict, keyed by (element, formal charge), embedded as
an association list in insertion order. -/
abbrev RadiusLookup := List ((String × ℚ) × RLEntry)

/-- Python dict membership test `key in radius_lookup`. -/
def containsKey (key : String × ℚ) (lookup : RadiusLookup) : Bool :=
  lookup.any (fun e => decide (e.1 = key))

/-- Python dict read `radius_lookup[key]` / `key in self.radius_lookup`
combined: the entry bound to a key, if any. -/
def lookupEntry (lookup : RadiusLookup) (key : String × ℚ) : Option RLEntry :=
  (lookup.find? (fun e => decide (e.1 = key))).map (fun e => e.2)

/-- A well-formed `radius_lookup` entry: either a stored radius `r` with the
sphere volume (4/3)π·r³, or an explicitly absent pair (both `None`). -/
def entry_wf (e : RLEntry) : Prop :=
  (∃ r : ℚ, e.ionic_radius = some r ∧
    e.volume = some ((4/3) * Real.pi * ((r : ℝ)) ^ 3)) ∨
  (e.ionic_radius = none ∧ e.volume = none)

/-- The loop body of `build_ionic_radius_lookup` over the `self.charges`
items, carrying the `radius_lookup` dict (insertion order) and `radii_list`.
An invalid coordination number skips the item; a key already present is
skipped; an exact (charge, Roman coordination) ionic-radius match stores
radius (pm → Å) and sphere volume (4/3)π·r³; otherwise the source evaluates
`elem.covalent_radius / 100.0` — which raises a `TypeError` when the covalent
datum is `None` — and stores the covalent radius when that quotient is
truthy (nonzero), or an explicitly absent entry (`None` radius and volume)
when it is zero.  (Python interpolates values into its messages; the embedded
messages carry the element symbol only.) -/
noncomputable def build_ionic_radius_lookup_loop (elem_data : ElementData) :
    Charges → RadiusLookup → List (Option ℚ) →
      Except String (RadiusLookup × List (Option ℚ))
  | [], lookup, radii_list => Except.ok (lookup, radii_list)
  | (atom_type, (charge, coordination)) :: rest, lookup, radii_list =>
    let key := (atom_type, charge)
    match to_roman coordination with
    | none => build_ionic_radius_lookup_loop elem_data rest lookup radii_list
    | some roman_coordination =>
      if containsKey key lookup then
        build_ionic_radius_lookup_loop elem_data rest lookup radii_list
      else
        match (elem_data.ionic_radii atom_type).find? (fun ir =>
            decide (ir.charge = charge) && decide (ir.coordination = roman_coordination)) with
        | some matching_radius =>
          let radius := matching_radius.ionic_radius / 100
          build_ionic_radius_lookup_loop elem_data rest
            (lookup ++ [(key, { ionic_radius := some radius,
                                volume := some ((4/3) * Real.pi * ((radius : ℝ)) ^ 3) })])
            (radii_list ++ [some radius])
        | none =>
          match elem_data.covalent_radius atom_type with
          | none =>
            Except.error ("TypeError: unsupported operand type for NoneType division (covalent radius of "
              ++ atom_type ++ ")")
          | some cov =>
            let covalent_radius := cov / 100
            if covalent_radius ≠ 0 then
              build_ionic_radius_lookup_loop elem_data rest
                (lookup ++ [(key, { ionic_radius := some covalent_radius,
                                    volume := some ((4/3) * Real.pi * ((covalent_radius : ℝ)) ^ 3) })])
                radii_list
            else
              build_ionic_radius_lookup_loop elem_data rest
                (lookup ++ [(key, { ionic_radius := none, volume := none })])
                (radii_list ++ [none])

/-- `build_ionic_radius_lookup` (source lines 363 to 435): iterate the
`self.charges` items from an empty dict and an empty radii list. -/
noncomputable def build_ionic_radius_lookup (elem_data : ElementData) (charges : Charges) :
    Except String (RadiusLookup × List (Option ℚ)) :=
  build_ionic_radius_lookup_loop elem_data charges [] []

/-! ### Ionic-radius volume estimator (source lines 437 to 480) -/

/-- The grouping key of `estimate_total_molecular_volume`:
`(atom.element, self.charges.get(atom.element, (0, 0))[0])`. -/
def atom_key (charges : Charges) (a : Atom) : String × ℚ :=
  (a.element, ((charges.lookup a.element).getD (0, 0)).1)

/-- `element_counts` (source lines 448 to 458): the `defaultdict(int)` over
all core+shell atoms, embedded as the distinct keys in first-insertion order
paired with their final multiplicities. -/
def element_counts (charges : Charges) (pdb : PDBStruct) : List ((String × ℚ) × ℕ) :=
  let all_atoms := pdb.core_atoms ++ pdb.shell_atoms
  (dedupFirst (all_atoms.map (atom_key charges))).map
    (fun k => (k, all_atoms.countP (fun a => decide (atom_key charges a = k))))

/-- The volume bound to a key of the radius lookup, when the key is present
and its volume is not `None`. -/
def entry_volume (lookup : RadiusLookup) (key : String × ℚ) : Option ℝ :=
  match lookupEntry lookup key with
  | some entry => entry.volume
  | none => none

/-- The printed warning of `estimate_total_molecular_volume` for a key whose
volume cannot be used: present-but-`None` (source line 473) or absent from
the lookup table (source line 475). -/
def missing_entry_warning (lookup : RadiusLookup) (key : String × ℚ) : String :=
  match lookupEntry lookup key with
  | some _ => "Warning: Volume for " ++ key.1 ++ " is None."
  | none => "Warning: No radius found for " ++ key.1 ++ " in lookup table."

/-- `estimate_total_molecular_volume` (source lines 437 to 480): walk the
element counts; a key with a usable volume adds count × volume to the total;
a key that is absent, or whose volume is `None`, only prints a warning — the
total is returned in every case (no exception).  Returns (total volume,
printed warnings). -/
noncomputable def estimate_total_molecular_volume (charges : Charges)
    (radius_lookup : RadiusLookup) (pdb : PDBStruct) : ℝ × List String :=
  (element_counts charges pdb).foldl
    (fun acc kc =>
      match entry_volume radius_lookup kc.1 with
      | some v => (acc.1 + (kc.2 : ℝ) * v, acc.2)
      | none => (acc.1, acc.2 ++ [missing_entry_warning radius_lookup kc.1]))
    (0, [])

/-! ### Radius of gyration (source lines 303 to 359) -/

/-- `np.average(positions, axis=0, weights=electron_counts)` (source
line 317): the weight-averaged coordinate, componentwise. -/
def weighted_center_of_mass (atom_positions : List Vec3) (electron_counts : List ℚ) : Vec3 :=
  let total := electron_counts.sum
  (((electron_counts.zip atom_positions).map (fun wp => wp.1 * wp.2.1)).sum / total,
   ((electron_counts.zip atom_positions).map (fun wp => wp.1 * wp.2.2.1)).sum / total,
   ((electron_counts.zip atom_positions).map (fun wp => wp.1 * wp.2.2.2)).sum / total)

/-- Source lines 320 to 322: the electron-weighted mean squared displacement
from the weighted center of mass
(`squared_distances / total_electrons`). -/
def weighted_msd (atom_positions : List Vec3) (electron_counts : List ℚ) : ℚ :=
  ((electron_counts.zip atom_positions).map
    (fun wp => wp.1 * distSq wp.2 (weighted_center_of_mass atom_positions electron_counts))).sum
    / electron_counts.sum

/-- `calculate_radius_of_gyration` (source lines 303 to 324). -/
noncomputable def calculate_radius_of_gyration (atom_positions : List Vec3)
    (electron_counts : List ℚ) : ℝ :=
  Real.sqrt (((weighted_msd atom_positions electron_counts : ℚ) : ℝ))

/-- Modelled from the spec: the electron counts computed by the missing
`RadiusOfGyrationCalculator` collaborator — element electron count minus
formal charge, per atom (mendeleev raises for an element it does not know). -/
def calculator_electron_counts (elem_data : ElementData) (atom_elements : List String)
    (atom_charges : List ℚ) : Except String (List ℚ) :=
  (atom_elements.zip atom_charges).mapM (fun ec =>
    match elem_data.electrons ec.1 with
    | some z => Except.ok ((z : ℚ) - ec.2)
    | none => Except.error ("NoSuchElementError: " ++ ec.1))

/-- Modelled from the spec: `RadiusOfGyrationCalculator.calculate_volume` with
`method='sphere'`.  The class is constructed by the worker (source lines 123
to 128) from the target atoms' positions, elements and charges, but its
definition is not among the repository sources; per the spec it computes the
electron-weighted radius of gyration of its points and returns the sphere
volume (4/3)π·Rg³. -/
noncomputable def rg_calculator_volume_sphere (elem_data : ElementData)
    (atom_positions : List Vec3) (atom_elements : List String) (atom_charges : List ℚ) :
    Except String ℝ := do
  let electron_counts ← calculator_electron_counts elem_data atom_elements atom_charges
  Except.ok ((4/3) * Real.pi * (calculate_radius_of_gyration atom_positions electron_counts) ^ 3)

/-! ### Per-file worker and batch orchestrator (source lines 91 to 185) -/

/-- The collected per-file result (`self.cluster_data` entry, source lines
157 to 163). -/
structure ClusterRecord where
  pdb_file : String
  cluster_size : ℕ
  coordination_stats : List ((String × String) × (ℚ × ℝ))
  volume : ℝ
  charge : ℚ

/-- The analyzer state and call configuration shared by all workers:
constructor arguments of `ClusterBatchAnalyzer.__init__` plus the
`shape_type` argument of `analyze_clusters`.  The external `PDBFileHandler`
loader is injected as a function of the file name; the ellipsoid branch of
the missing `RadiusOfGyrationCalculator` is modelled from the spec as an
injected function returning (volume, Rgx, Rgy, Rgz) — no claim depends on
its value. -/
structure Config where
  loader : String → Except String PDBStruct
  target_elements : List String
  coord : CoordConfig
  charges : Charges
  volume_method : String
  shape_type : String
  radius_lookup : RadiusLookup
  elem_data : ElementData
  ellipsoid_volume : List Vec3 → List ℚ → ℝ × ℝ × ℝ × ℝ

/-- `process_pdb_file` without its `try/except` wrapper (source lines 103 to
142): load the structure, select the target atoms (core atoms of a target
element); none found is the `unmatched` outcome (`Except.ok none`); otherwise
compute coordination statistics, dispatch the volume method by its string tag
(an unknown method or shape raises a `ValueError` here, per file), sum the
cluster charge, and package the record. -/
noncomputable def process_pdb_file_body (cfg : Config) (pdb_file : String) :
    Except String (Option ClusterRecord) := do
  let pdb ← cfg.loader pdb_file
  let target_atoms := pdb.core_atoms.filter (fun a => cfg.target_elements.contains a.element)
  if target_atoms = [] then
    Except.ok none
  else
    let coordination_stats :=
      calculate_coordination_numbers cfg.coord (pdb.core_atoms ++ pdb.shell_atoms) target_atoms
    let cluster_volume ←
      if cfg.volume_method = "ionic_radius" then
        Except.ok (estimate_total_molecular_volume cfg.charges cfg.radius_lookup pdb).1
      else if cfg.volume_method = "radius_of_gyration" then do
        let atom_charges ← target_atoms.mapM (fun a =>
          match cfg.charges.lookup a.element with
          | some cc => Except.ok cc.1
          | none => Except.error ("KeyError: " ++ a.element))
        if cfg.shape_type = "sphere" then
          rg_calculator_volume_sphere cfg.elem_data
            (target_atoms.map (fun a => a.coordinates))
            (target_atoms.map (fun a => a.element)) atom_charges
        else if cfg.shape_type = "ellipsoid" then do
          let electron_counts ← calculator_electron_counts cfg.elem_data
            (target_atoms.map (fun a => a.element)) atom_charges
          Except.ok (cfg.ellipsoid_volume (target_atoms.map (fun a => a.coordinates))
            electron_counts).1
        else
          Except.error ("Unknown shape type: " ++ cfg.shape_type)
      else
        Except.error ("Unknown volume method: " ++ cfg.volume_method)
    let cluster_charge := calculate_cluster_charge cfg.charges pdb
    Except.ok (some { pdb_file := pdb_file, cluster_size := target_atoms.length,
                      coordination_stats := coordination_stats, volume := cluster_volume,
                      charge := cluster_charge })

/-- The batch result assembled by `analyze_clusters` (source lines 147 to
172): collected records, the printed per-file error diagnostics, the files
recorded as having no target atoms, and the `no_target_atoms_count` tally
(which the source increments for error outcomes as well). -/
structure BatchResult where
  records : List ClusterRecord
  error_log : List String
  no_target_atoms_files : List String
  no_target_atoms_count : ℕ

/-- The collection loop of `analyze_clusters` (source lines 147 to 172): one
worker per file; a worker whose body raises is caught at the worker boundary
(source lines 143 to 145), prints `Error processing file <file>: <error>` and
contributes no record.  The thread pool's completion order is modelled as
submission order; every collected component is insensitive to that order for
the properties below. -/
noncomputable def analyze_clusters (cfg : Config) (pdb_files : List String) : BatchResult :=
  { records := pdb_files.filterMap (fun f =>
      match process_pdb_file_body cfg f with
      | Except.ok (some rec) => some rec
      | _ => none),
    error_log := pdb_files.filterMap (fun f =>
      match process_pdb_file_body cfg f with
      | Except.error e => some ("Error processing file " ++ f ++ ": " ++ e)
      | _ => none),
    no_target_atoms_files := pdb_files.filterMap (fun f =>
      match process_pdb_file_body cfg f with
      | Except.ok none => some f
      | _ => none),
    no_target_atoms_count := (pdb_files.filter (fun f =>
      match process_pdb_file_body cfg f with
      | Except.ok (some _) => false
      | _ => true)).length }

/-- The worker's target selection (source line 107): core atoms whose element
is a configured target element. -/
def target_atoms_of (cfg : Config) (pdb : PDBStruct) : List Atom :=
  pdb.core_atoms.filter (fun a => cfg.target_elements.contains a.element)

/-- The electron-count weight of one atom, per the spec: the element's
electron count minus its tabulated formal charge (absent data defaulted only
for stating the formula — the theorems assume both lookups succeed). -/
def atom_weight (cfg : Config) (a : Atom) : ℚ :=
  (((cfg.elem_data.electrons a.element).getD 0 : ℤ) : ℚ) -
    ((cfg.charges.lookup a.element).getD (0, 0)).1

/-- Follows the claim wording of C6: volume = (4/3)π·Rg³ with
Rg = sqrt( (Σ w·‖p − c‖²) / Σ w ) over the target atoms, where `c` is the
w-weighted center of mass and `w` the electron-count weight. -/
noncomputable def rg_spec_volume (cfg : Config) (pdb : PDBStruct) : ℝ :=
  (4/3) * Real.pi *
    Real.sqrt ((((
      (target_atoms_of cfg pdb).map (fun a => atom_weight cfg a * distSq a.coordinates
        ((((target_atoms_of cfg pdb).map (fun b => atom_weight cfg b * b.coordinates.1)).sum /
            ((target_atoms_of cfg pdb).map (atom_weight cfg)).sum),
         (((target_atoms_of cfg pdb).map (fun b => atom_weight cfg b * b.coordinates.2.1)).sum /
            ((target_atoms_of cfg pdb).map (atom_weight cfg)).sum),
         (((target_atoms_of cfg pdb).map (fun b => atom_weight cfg b * b.coordinates.2.2)).sum /
            ((target_atoms_of cfg pdb).map (atom_weight cfg)).sum)))).sum /
      ((target_atoms_of cfg pdb).map (atom_weight cfg)).sum : ℚ) : ℝ)) ^ 3

/-! ### Convex-hull volume estimator (source lines 483 to 491) -/

/-- A rational 3D coordinate as a point of ℝ³ (`Fin 3 → ℝ`). -/
noncomputable def toR3 (p : Vec3) : Fin 3 → ℝ := ![(p.1 : ℝ), (p.2.1 : ℝ), (p.2.2 : ℝ)]

/-- The point list handed to the hull: the coordinates of all core+shell
atoms (source line 489). -/
def hull_points (pdb : PDBStruct) : List Vec3 :=
  (pdb.core_atoms ++ pdb.shell_atoms).map (fun a => a.coordinates)

/-- The external `scipy.spatial.ConvexHull(...).volume`, modelled as the
Lebesgue volume of the geometric convex hull of the points. -/
noncomputable def hull_volume (points : List Vec3) : ℝ :=
  (MeasureTheory.volume (convexHull ℝ (toR3 '' {p : Vec3 | p ∈ points}))).toReal

/-- `calculate_cluster_volume` (source lines 483 to 491): fewer than 4 atoms
prints a diagnostic and returns volume 0 (no error); otherwise the convex
hull volume of all core+shell coordinates.  Returns (volume, printed
diagnostics). -/
noncomputable def calculate_cluster_volume (pdb : PDBStruct) : ℝ × List String :=
  if (pdb.core_atoms ++ pdb.shell_atoms).length < 4 then
    (0, ["Not enough atoms to calculate Convex Hull. Returning 0 volume."])
  else
    (hull_volume (hull_points pdb), [])

/-! ### Outward-facing-point surface generation (source lines 610 to 630) -/

/-- The golden ratio `phi = (1 + sqrt 5) / 2` (source line 614). -/
noncomputable def phi : ℝ := (1 + Real.sqrt 5) / 2

/-- `np.linalg.norm` of one 3D row. -/
noncomputable def norm3 (v : ℝ × ℝ × ℝ) : ℝ :=
  Real.sqrt (v.1 ^ 2 + v.2.1 ^ 2 + v.2.2 ^ 2)

/-- `np.dot` of two 3D rows. -/
noncomputable def dot3 (u v : ℝ × ℝ × ℝ) : ℝ :=
  u.1 * v.1 + u.2.1 * v.2.1 + u.2.2 * v.2.2

/-- Componentwise difference of 3D rows. -/
noncomputable def sub3 (u v : ℝ × ℝ × ℝ) : ℝ × ℝ × ℝ :=
  (u.1 - v.1, u.2.1 - v.2.1, u.2.2 - v.2.2)

/-- Componentwise sum of 3D rows. -/
noncomputable def add3 (u v : ℝ × ℝ × ℝ) : ℝ × ℝ × ℝ :=
  (u.1 + v.1, u.2.1 + v.2.1, u.2.2 + v.2.2)

/-- Scalar multiple of a 3D row. -/
noncomputable def smul3 (c : ℝ) (v : ℝ × ℝ × ℝ) : ℝ × ℝ × ℝ :=
  (c * v.1, c * v.2.1, c * v.2.2)

/-- The 20 unnormalized golden-ratio dodecahedron vertices, in source order
(source lines 615 to 621). -/
noncomputable def dodecahedron_raw_vertices : List (ℝ × ℝ × ℝ) :=
  [(-1, -1, -1), (1, -1, -1), (-1, 1, -1), (1, 1, -1),
   (-1, -1, 1), (1, -1, 1), (-1, 1, 1), (1, 1, 1),
   (0, -1/phi, -phi), (0, 1/phi, -phi), (0, -1/phi, phi), (0, 1/phi, phi),
   (-1/phi, -phi, 0), (1/phi, -phi, 0), (-1/phi, phi, 0), (1/phi, phi, 0),
   (-phi, 0, -1/phi), (phi, 0, -1/phi), (-phi, 0, 1/phi), (phi, 0, 1/phi)]

/-- `generate_dodecahedron_vertices` (source lines 613 to 622): the raw
vertex array divided by the norm of its first row. -/
noncomputable def generate_dodecahedron_vertices : List (ℝ × ℝ × ℝ) :=
  let n := norm3 (dodecahedron_raw_vertices.headD (0, 0, 0))
  dodecahedron_raw_vertices.map (fun v => (v.1 / n, v.2.1 / n, v.2.2 / n))

/-- `generate_outward_facing_points` (source lines 624 to 630): normalize the
direction from the cluster's geometric center to the atom, keep the
dodecahedron vertices with positive dot product against it, scale them by the
atom's radius and translate them to the atom's position. -/
noncomputable def generate_outward_facing_points (position : ℝ × ℝ × ℝ) (radius : ℝ)
    (geometric_center : ℝ × ℝ × ℝ) : List (ℝ × ℝ × ℝ) :=
  let direction0 := sub3 position geometric_center
  let direction := smul3 (1 / norm3 direction0) direction0
  (generate_dodecahedron_vertices.filter (fun vertex => decide (0 < dot3 vertex direction))).map
    (fun vertex => add3 position (smul3 radius vertex))

/-! ### Concrete fixtures for witnesses and counterexamples -/

/-- The worked statistics example: cluster sizes `{2, 2, 3}` with volumes
`{10, 12, 9}` (real-valued, as produced by the volume estimators). -/
noncomputable def dataEx : List (ℕ × ℝ) := [(2, 10), (2, 12), (3, 9)]

/-- Element table fixture knowing lead and sulfur. -/
def edW : ElementData :=
  { electrons := fun e => if e = "Pb" then some 82 else if e = "S" then some 16 else none,
    ionic_radii := fun e =>
      if e = "Pb" then [{ charge := 2, coordination := "VI", ionic_radius := 119 }] else [],
    covalent_radius := fun e =>
      if e = "Pb" then some 146 else if e = "S" then some 103 else none }

/-- Element table fixture with no data at all (no ionic rows, no covalent
radius, no electron count). -/
def edEmpty : ElementData :=
  { electrons := fun _ => none, ionic_radii := fun _ => [], covalent_radius := fun _ => none }

/-- Charge table fixture: lead(+2, coordination 6) only. -/
def chargesPb : Charges := [("Pb", (2, 6))]

/-- Charge table fixture: an element with a configured (charge, coordination)
pair but no reference data at all. -/
def chargesXx : Charges := [("Xx", (2, 6))]

/-- Charge table fixture for the worker: lead(+2) and sulfur(−2). -/
def chargesW : Charges := [("Pb", (2, 6)), ("S", (-2, 6))]

/-- The radius lookup the builder produces from `edW` and `chargesPb`. -/
noncomputable def lookupPb : RadiusLookup :=
  [(("Pb", 2), { ionic_radius := some (119 / 100),
                 volume := some ((4/3) * Real.pi * ((119 / 100 : ℚ) : ℝ) ^ 3) })]

/-- Structure fixture: two core lead atoms and one shell sulfur atom. -/
def pdbW : PDBStruct :=
  { core_atoms := [{ element := "Pb", coordinates := (0, 0, 0) },
                   { element := "Pb", coordinates := (3, 0, 0) }],
    shell_atoms := [{ element := "S", coordinates := (1, 1, 1) }] }

/-- Loader fixture: `bad.pdb` raises inside the external structure loader,
every other file parses to `pdbW`. -/
def loaderW : String → Except String PDBStruct := fun f =>
  if f = "bad.pdb" then Except.error "ParserError: truncated file" else Except.ok pdbW

/-- Worker configuration fixture: ionic-radius volume method over `pdbW`. -/
noncomputable def cfgW : Config :=
  { loader := loaderW, target_elements := ["Pb"],
    coord := { neighbor_elements := ["S"], distance_thresholds := [(("Pb", "S"), 3)] },
    charges := chargesW, volume_method := "ionic_radius", shape_type := "sphere",
    radius_lookup := lookupPb, elem_data := edW,
    ellipsoid_volume := fun _ _ => (0, 0, 0, 0) }

/-- `cfgW` with an unrecognized volume-method name. -/
noncomputable def cfgBogus : Config := { cfgW with volume_method := "bogus" }

/-- `cfgW` with the radius-of-gyration sphere method selected. -/
noncomputable def cfgRg : Config :=
  { cfgW with volume_method := "radius_of_gyration", radius_lookup := [] }

/-- Charge table for the silent-zero ionic-volume counterexample: only
element `A` is configured. -/
def chargesA3 : Charges := [("A", (2, 6))]

/-- Radius lookup for the silent-zero counterexample: only the key
`(A, 2)` has an entry (unit radius, volume (4/3)π). -/
noncomputable def lookupA3 : RadiusLookup :=
  [(("A", 2), { ionic_radius := some 1, volume := some ((4/3) * Real.pi) })]

/-- Cluster for the silent-zero counterexample: one `A` atom and one `B`
atom, where `(B, 0)` has no radius-lookup entry. -/
def pdbA3 : PDBStruct :=
  { core_atoms := [{ element := "A", coordinates := (0, 0, 0) },
                   { element := "B", coordinates := (1, 0, 0) }],
    shell_atoms := [] }

/-- A unit tetrahedron: four non-coplanar atom positions. -/
def pdbT : PDBStruct :=
  { core_atoms := [{ element := "C", coordinates := (0, 0, 0) },
                   { element := "C", coordinates := (1, 0, 0) },
                   { element := "C", coordinates := (0, 1, 0) },
                   { element := "C", coordinates := (0, 0, 1) }],
    shell_atoms := [] }

/-- A degenerate cluster of a single atom. -/
def pdbSmall : PDBStruct :=
  { core_atoms := [{ element := "C", coordinates := (0, 0, 0) }], shell_atoms := [] }

/-- Coordination configuration in which the single target element is also a
configured neighbor of itself. -/
def cfgA : CoordConfig :=
  { neighbor_elements := ["A"], distance_thresholds := [(("A", "A"), 1)] }

/-- A single atom of element `A` at the origin. -/
def atomA : Atom := { element := "A", coordinates := (0, 0, 0) }

/-- Charge table of the worked example of C9: element `A` has formal charge
`+2`, element `B` has formal charge `-1`. -/
def chargesAB : Charges := [("A", (2, 6)), ("B", (-1, 6))]

/-- Cluster of the worked example of C9: two `A` atoms and three `B` atoms. -/
def pdbAB : PDBStruct :=
  { core_atoms := [{ element := "A", coordinates := (0, 0, 0) },
                   { element := "A", coordinates := (1, 0, 0) }],
    shell_atoms := [{ element := "B", coordinates := (0, 1, 0) },
                    { element := "B", coordinates := (0, 0, 1) },
                    { element := "B", coordinates := (1, 1, 0) }] }

/-! ## Theorems -/

theorem distSq_nonneg (p q : Vec3) : 0 ≤ distSq p q := by
  have h1 : (0:ℚ) ≤ (p.1 - q.1) ^ 2 := sq_nonneg _
  have h2 : (0:ℚ) ≤ (p.2.1 - q.2.1) ^ 2 := sq_nonneg _
  have h3 : (0:ℚ) ≤ (p.2.2 - q.2.2) ^ 2 := sq_nonneg _
  unfold distSq
  linarith

theorem are_connected_iff_sqrt (atom1 atom2 : Atom) (threshold : ℚ) :
    are_connected atom1 atom2 threshold = true ↔
      Real.sqrt ((distSq atom1.coordinates atom2.coordinates : ℝ)) ≤ (threshold : ℝ) := by
  rw [Real.sqrt_le_iff]
  unfold are_connected
  simp only [Bool.and_eq_true, decide_eq_true_eq]
  constructor
  · rintro ⟨h0, hle⟩
    refine ⟨by exact_mod_cast h0, ?_⟩
    have h : ((distSq atom1.coordinates atom2.coordinates : ℚ) : ℝ) ≤ ((threshold ^ 2 : ℚ) : ℝ) := by
      exact_mod_cast hle
    simpa using h
  · rintro ⟨h0, hle⟩
    refine ⟨by exact_mod_cast h0, ?_⟩
    have h : ((distSq atom1.coordinates atom2.coordinates : ℚ) : ℝ) ≤ ((threshold : ℝ)) ^ 2 := hle
    exact_mod_cast h

theorem mem_dedupFirst {α : Type} [DecidableEq α] (l : List α) (a : α) :
    a ∈ dedupFirst l ↔ a ∈ l := by
  induction l using dedupFirst.induct with
  | case1 => simp [dedupFirst]
  | case2 x xs ih =>
    rw [dedupFirst]
    by_cases hax : a = x
    · subst hax; simp
    · simp only [List.mem_cons, ih, List.mem_filter]
      constructor
      · rintro (h | ⟨h, _⟩)
        · exact Or.inl h
        · exact Or.inr h
      · rintro (h | h)
        · exact Or.inl h
        · exact Or.inr ⟨h, by simpa using hax⟩

theorem nodup_dedupFirst {α : Type} [DecidableEq α] (l : List α) :
    (dedupFirst l).Nodup := by
  induction l using dedupFirst.induct with
  | case1 => simp [dedupFirst]
  | case2 x xs ih =>
    rw [dedupFirst]
    refine List.Nodup.cons ?_ ih
    intro hmem
    rw [mem_dedupFirst] at hmem
    exact (by simpa using (List.mem_filter.mp hmem).2 : x ≠ x) rfl

theorem foldl_add_eq_sum {α : Type} (f : α → ℚ) (l : List α) (init : ℚ) :
    l.foldl (fun total a => total + f a) init = init + (l.map f).sum := by
  induction l generalizing init with
  | nil => simp
  | cons a as ih => simp [List.foldl, ih, add_assoc]

/-- **C9.** The charge aggregator returns exactly the sum, over every atom of
the core and shell groups, of the first component of that element's
`FormalChargeTable` tuple, with elements absent from the table contributing
`0` silently; on the worked example (two atoms of charge `+2`, three of
charge `-1`) the total is `+1`. -/
theorem cluster_charge_is_tabulated_sum :
    (∀ (charges : Charges) (pdb : PDBStruct),
      calculate_cluster_charge charges pdb =
        ((pdb.core_atoms ++ pdb.shell_atoms).map
          (fun atom => ((charges.lookup atom.element).getD (0, 0)).1)).sum) ∧
    calculate_cluster_charge chargesAB pdbAB = 1 := by
  constructor
  · intro charges pdb
    unfold calculate_cluster_charge
    rw [foldl_add_eq_sum, foldl_add_eq_sum]
    simp [add_assoc]
  · show (0:ℚ) + 2 + 2 + -1 + -1 + -1 = 1
    norm_num

/-- **C4 (amended).** For every cluster and target atom, the coordination
count for each configured neighbor element starts at zero and is incremented
exactly once for each atom of the combined core+shell list — *including the
target atom itself when it qualifies* — whose element is a configured
neighbor and lies within the threshold configured for the directional
(target-element, neighbor-element) key; pairs with no configured threshold
contribute nothing and raise no error; the reported per-pair statistics are
the mean and population standard deviation of these counts over all target
atoms. -/
theorem coordination_numbers_amended (cfg : CoordConfig) (all_atoms target_atoms : List Atom) :
    (∀ t ∈ target_atoms, ∀ n,
      coord_count cfg all_atoms t n =
        (all_atoms.filter (fun other_atom =>
          cfg.neighbor_elements.contains other_atom.element &&
          (other_atom.element == n) &&
          (match cfg.distance_thresholds.lookup (t.element, other_atom.element) with
           | some threshold => are_connected t other_atom threshold
           | none => false))).length) ∧
    (∀ t ∈ target_atoms, ∀ n,
      cfg.distance_thresholds.lookup (t.element, n) = none →
        coord_count cfg all_atoms t n = 0) ∧
    (∀ t ∈ all_atoms, cfg.neighbor_elements.contains t.element = true →
      ∀ thr : ℚ, cfg.distance_thresholds.lookup (t.element, t.element) = some thr →
        0 ≤ thr → 1 ≤ coord_count cfg all_atoms t t.element) ∧
    calculate_coordination_numbers cfg all_atoms target_atoms =
      (coordination_pairs cfg target_atoms).map (fun p =>
        (p, (listMean (pair_counts cfg all_atoms target_atoms p),
             Real.sqrt (((popVar (pair_counts cfg all_atoms target_atoms p) : ℚ) : ℝ))))) := by
  refine ⟨?_, ?_, ?_, rfl⟩
  · intro t _ n
    exact List.countP_eq_length_filter _ _
  · intro t _ n hnone
    unfold coord_count
    rw [List.countP_eq_zero]
    intro a _
    by_cases hel : a.element = n
    · simp [hel, hnone]
    · simp [hel]
  · intro t ht hcont thr hthr h0
    have hmem : t.element ∈ cfg.neighbor_elements := by
      simpa using hcont
    have hconn : are_connected t t thr = true := by
      unfold are_connected
      have hd : distSq t.coordinates t.coordinates = 0 := by
        simp [distSq]
      rw [hd]
      simp only [Bool.and_eq_true, decide_eq_true_eq]
      exact ⟨h0, sq_nonneg thr⟩
    have hpos : 0 < coord_count cfg all_atoms t t.element := by
      rw [coord_count, List.countP_pos_iff]
      refine ⟨t, ht, ?_⟩
      simp [hmem, hthr, hconn]
    omega

/-- Witness for `coordination_numbers_amended`, at the one-atom fixture: the
self-pair count is at least one, and the unconfigured pair (`A`, `B`)
contributes a zero count. -/
theorem coordination_numbers_amended_witness :
    1 ≤ coord_count cfgA [atomA] atomA "A" ∧
    coord_count cfgA [atomA] atomA "B" = 0 := by
  have h := coordination_numbers_amended cfgA [atomA] [atomA]
  constructor
  · have hc := h.2.2.1 atomA (by simp) (by simp [cfgA, atomA]) 1
      (by simp [cfgA, atomA]) (by norm_num)
    simpa [atomA] using hc
  · exact h.2.1 atomA (by simp) "B" (by simp [cfgA, atomA])

/-- **C4 counterexample.** With one target atom of element `A`, `A` configured
as a neighbor of itself with threshold `1`, and the cluster consisting of that
single atom, the source counts the target atom as its own neighbor (distance
`0 ≤ 1`): the reported count and mean are `1`, whereas the claim — which
restricts the increments to atoms *other than the target atom itself* —
predicts `0`. -/
theorem coordination_numbers_self_count_counterexample :
    coord_count cfgA [atomA] atomA "A" = 1 ∧
    coord_count_spec cfgA [atomA] atomA "A" = 0 ∧
    listMean (pair_counts cfgA [atomA] [atomA] ("A", "A")) = 1 := by
  refine ⟨?_, ?_, ?_⟩
  · simp [coord_count, cfgA, atomA, are_connected, distSq, List.countP, List.countP.go]
  · simp [coord_count_spec, cfgA, atomA, List.countP, List.countP.go]
  · norm_num [listMean, pair_counts, cfgA, atomA, coord_count, are_connected, distSq,
      List.countP, List.countP.go]

theorem mem_insertSorted (n a : ℕ) (l : List ℕ) :
    a ∈ insertSorted n l ↔ a = n ∨ a ∈ l := by
  induction l with
  | nil => simp [insertSorted]
  | cons m ms ih =>
    by_cases h : n ≤ m
    · simp [insertSorted, h]
    · simp only [insertSorted, if_neg h, List.mem_cons, ih]
      tauto

theorem mem_sortNat (a : ℕ) (l : List ℕ) : a ∈ sortNat l ↔ a ∈ l := by
  unfold sortNat
  induction l with
  | nil => simp
  | cons m ms ih => simp [List.foldr, mem_insertSorted, ih]

theorem argmaxAux_spec {α : Type} [LinearOrder α] (l : List α) (hne : l ≠ []) :
    ∃ j m, argmaxAux l = some (j, m) ∧
      ∃ h : j < l.length, l.get ⟨j, h⟩ = m ∧ ∀ x ∈ l, x ≤ m := by
  induction l with
  | nil => exact absurd rfl hne
  | cons x xs ih =>
    by_cases hxs : xs = []
    · subst hxs
      exact ⟨0, x, by simp [argmaxAux], by simp, by simp, by simp⟩
    · obtain ⟨j, m, haux, hj, hget, hmax⟩ := ih hxs
      by_cases hlt : x < m
      · refine ⟨j + 1, m, by simp [argmaxAux, haux, hlt], Nat.succ_lt_succ hj, by simpa using hget, ?_⟩
        intro y hy
        rcases List.mem_cons.mp hy with h | h
        · exact h ▸ le_of_lt hlt
        · exact hmax y h
      · refine ⟨0, x, by simp [argmaxAux, haux, hlt], by simp, by simp, ?_⟩
        intro y hy
        rcases List.mem_cons.mp hy with h | h
        · exact le_of_eq h
        · exact le_trans (hmax y h) (not_lt.mp hlt)

theorem size_bucket_ne_nil {α : Type} (data : List (ℕ × α)) (s : ℕ)
    (hs : s ∈ cluster_sizes data) : size_bucket data s ≠ [] := by
  rw [cluster_sizes, mem_dedupFirst] at hs
  obtain ⟨d, hd, hds⟩ := List.mem_map.mp hs
  intro hnil
  have hmem : d.2 ∈ size_bucket data s := by
    rw [size_bucket]
    exact List.mem_map.mpr ⟨d, List.mem_filter.mpr ⟨hd, by simp [hds]⟩, rfl⟩
  simp [hnil] at hmem

/-- **C8 (confirmed).** After a batch completes, for each cluster size the
aggregator reports the mean and the population standard deviation of that
size's volume bucket; the volume-fraction contribution of a size equals
(mean volume × count) / Σ (mean volume × count); the size identified as the
mode attains the maximum volume-fraction. -/
theorem statistics_aggregator_mode (data : List (ℕ × ℝ)) (hne : data ≠ []) :
    (∀ s ∈ sorted_sizes data,
      average_volumes_per_size data s =
        (size_bucket data s).sum / ((size_bucket data s).length : ℝ) ∧
      std_dev_per_size data s = Real.sqrt (popVar (size_bucket data s))) ∧
    (∀ s ∈ sorted_sizes data,
      volume_fraction data s =
        average_volumes_per_size data s * ((size_bucket data s).length : ℝ) /
          (((cluster_sizes data).map
            (fun u => average_volumes_per_size data u * ((size_bucket data u).length : ℝ))).sum) ∧
      volume_percentage data s = volume_fraction data s * 100) ∧
    mode_size data ∈ sorted_sizes data ∧
    (∀ s ∈ sorted_sizes data,
      volume_fraction data s ≤ volume_fraction data (mode_size data)) := by
  have hsizes_ne : cluster_sizes data ≠ [] := by
    obtain ⟨d, hd⟩ : ∃ d, d ∈ data := by
      cases data with
      | nil => exact absurd rfl hne
      | cons d ds => exact ⟨d, by simp⟩
    intro hnil
    have hmem : d.1 ∈ cluster_sizes data := by
      rw [cluster_sizes, mem_dedupFirst]
      exact List.mem_map.mpr ⟨d, hd, rfl⟩
    rw [hnil] at hmem
    simp at hmem
  have hsorted_ne : sorted_sizes data ≠ [] := by
    intro hnil
    cases hcs : cluster_sizes data with
    | nil => exact hsizes_ne hcs
    | cons c cs =>
      have : c ∈ sortNat (cluster_sizes data) := by
        rw [mem_sortNat, hcs]; simp
      rw [sorted_sizes] at hnil
      rw [hnil] at this
      simp at this
  have hpcts_ne : volume_percentages data ≠ [] := by
    rw [volume_percentages]
    simpa using hsorted_ne
  obtain ⟨j, m, haux, hjlt, hget, hmax⟩ := argmaxAux_spec (volume_percentages data) hpcts_ne
  have hidx : argmaxIdx (volume_percentages data) = j := by
    rw [argmaxIdx, haux]; rfl
  have hjlt2 : j < (sorted_sizes data).length := by
    have : (volume_percentages data).length = (sorted_sizes data).length := by
      rw [volume_percentages, List.length_map]
    omega
  have hmode : mode_size data = (sorted_sizes data).get ⟨j, hjlt2⟩ := by
    rw [mode_size, hidx, List.getD_eq_getElem _ _ hjlt2]
    exact (List.get_eq_getElem _ ⟨j, hjlt2⟩).symm
  have hmode_mem : mode_size data ∈ sorted_sizes data := by
    rw [hmode]
    exact List.get_mem _ _ hjlt2
  have hbucket_pos : ∀ s ∈ sorted_sizes data, 0 < (size_bucket data s).length := by
    intro s hs
    rw [sorted_sizes, mem_sortNat] at hs
    have := size_bucket_ne_nil data s hs
    exact List.length_pos.mpr this
  have hpct_eq : ∀ s ∈ sorted_sizes data,
      volume_percentage data s = volume_fraction data s * 100 := by
    intro s hs
    rw [volume_percentage, if_pos (hbucket_pos s hs), volume_fraction]
  refine ⟨fun s _ => ⟨rfl, rfl⟩, fun s hs => ⟨rfl, hpct_eq s hs⟩, hmode_mem, ?_⟩
  intro s hs
  have hs_pct : volume_percentage data s ∈ volume_percentages data := by
    rw [volume_percentages]
    exact List.mem_map.mpr ⟨s, hs, rfl⟩
  have h1 : volume_percentage data s ≤ m := hmax _ hs_pct
  have h2 : m = volume_percentage data (mode_size data) := by
    rw [← hget, hmode]
    simp only [volume_percentages, List.get_eq_getElem, List.getElem_map]
  have h3 : volume_fraction data s * 100 ≤ volume_fraction data (mode_size data) * 100 := by
    rw [← hpct_eq s hs, ← hpct_eq _ hmode_mem, ← h2]
    exact h1
  have h100 : (0:ℝ) < 100 := by norm_num
  exact le_of_mul_le_mul_right h3 h100

/-- Witness for `statistics_aggregator_mode` at the worked example
`{2, 2, 3} / {10, 12, 9}`: the aggregation contract holds, the mean volume
for size 2 is 11 with standard deviation 1, the volume fraction of size 3 is
9/31, and the mode is size 2. -/
theorem statistics_aggregator_mode_witness :
    (dataEx ≠ [] ∧
      (mode_size dataEx ∈ sorted_sizes dataEx ∧
        ∀ s ∈ sorted_sizes dataEx,
          volume_fraction dataEx s ≤ volume_fraction dataEx (mode_size dataEx))) ∧
    average_volumes_per_size dataEx 2 = 11 ∧
    std_dev_per_size dataEx 2 = 1 ∧
    volume_fraction dataEx 3 = 9 / 31 ∧
    mode_size dataEx = 2 := by
  have hne : dataEx ≠ [] := by simp [dataEx]
  have h := statistics_aggregator_mode dataEx hne
  have havg : average_volumes_per_size dataEx 2 = 11 := by
    norm_num [average_volumes_per_size, dataEx, size_bucket, listMean]
  have hstd : std_dev_per_size dataEx 2 = 1 := by
    have hv : popVar (size_bucket dataEx 2) = 1 := by
      norm_num [dataEx, size_bucket, popVar, listMean]
    rw [std_dev_per_size, hv, Real.sqrt_one]
  have hfrac : volume_fraction dataEx 3 = 9 / 31 := by
    norm_num [volume_fraction, dataEx, size_bucket, listMean, total_cluster_volume,
      cluster_sizes, dedupFirst]
  have hmode : mode_size dataEx = 2 := by
    norm_num [mode_size, dataEx, argmaxIdx, argmaxAux, volume_percentages, sorted_sizes,
      sortNat, insertSorted, cluster_sizes, dedupFirst, volume_percentage, size_bucket,
      listMean, total_cluster_volume]
  exact ⟨⟨hne, h.2.2⟩, havg, hstd, hfrac, hmode⟩

/-- **C1 (confirmed).** A per-file exception (anywhere in the worker body:
loading, coordination counting, volume estimation, charge summation) is
caught at the worker boundary: the batch result — which `analyze_clusters`
always produces, being a total function, so the batch call completes without
re-raising — contains a logged diagnostic naming the file, no record for that
file, and exactly the records the remaining files produce on their own. -/
theorem batch_isolates_worker_failures (cfg : Config) (l₁ l₂ : List String)
    (f e : String) (herr : process_pdb_file_body cfg f = Except.error e) :
    (analyze_clusters cfg (l₁ ++ f :: l₂)).records =
      (analyze_clusters cfg (l₁ ++ l₂)).records ∧
    ("Error processing file " ++ f ++ ": " ++ e) ∈
      (analyze_clusters cfg (l₁ ++ f :: l₂)).error_log := by
  constructor
  · simp [analyze_clusters, List.filterMap_append, herr]
  · simp [analyze_clusters, List.filterMap_append, herr]

/-- Witness for `batch_isolates_worker_failures`: `bad.pdb` fails inside the
external loader; the two-file batch keeps the other file's records untouched
and logs the failure with the file name. -/
theorem batch_isolates_worker_failures_witness :
    process_pdb_file_body cfgW "bad.pdb" = Except.error "ParserError: truncated file" ∧
    ((analyze_clusters cfgW ["good.pdb", "bad.pdb"]).records =
        (analyze_clusters cfgW ["good.pdb"]).records ∧
      ("Error processing file " ++ "bad.pdb" ++ ": " ++ "ParserError: truncated file") ∈
        (analyze_clusters cfgW ["good.pdb", "bad.pdb"]).error_log) := by
  have herr : process_pdb_file_body cfgW "bad.pdb" =
      Except.error "ParserError: truncated file" := by
    simp [process_pdb_file_body, cfgW, loaderW, Bind.bind, Except.bind]
  exact ⟨herr,
    batch_isolates_worker_failures cfgW ["good.pdb"] [] "bad.pdb" "ParserError: truncated file" herr⟩

theorem except_bind_ok {α β : Type} (a : α) (k : α → Except String β) :
    (Except.ok a >>= k) = k a := rfl

theorem except_bind_error {α β : Type} (e : String) (k : α → Except String β) :
    ((Except.error e : Except String α) >>= k) = Except.error e := rfl

/-- `List.mapM` of the worker's per-atom charge lookup succeeds and yields the
looked-up charges when every target element is in the charge table. -/
theorem mapM_charges_ok (charges : Charges) (l : List Atom)
    (h : ∀ a ∈ l, (charges.lookup a.element).isSome) :
    l.mapM (fun a =>
      match charges.lookup a.element with
      | some cc => Except.ok cc.1
      | none => Except.error ("KeyError: " ++ a.element)) =
    Except.ok (l.map (fun a => ((charges.lookup a.element).getD (0, 0)).1)) := by
  induction l with
  | nil => rfl
  | cons a as ih =>
    obtain ⟨cc, hcc⟩ := Option.isSome_iff_exists.mp (h a (by simp))
    rw [List.mapM_cons, ih (fun x hx => h x (by simp [hx]))]
    simp [hcc, Bind.bind, Except.bind, Pure.pure, Except.pure]

/-- **C2 (amended).** Unknown volume-method and shape-type names are *not*
validated before fan-out: there is no configuration-time check, so each
per-file worker raises the `ValueError` during its own processing; the error
is caught at the worker boundary, logged with the file identifier, the file
contributes an empty result, and the batch completes with no records and one
diagnostic per file. -/
theorem unknown_configuration_handled_per_file :
    (∀ (cfg : Config) (f : String) (pdb : PDBStruct),
      cfg.loader f = Except.ok pdb →
      (pdb.core_atoms.filter (fun a => cfg.target_elements.contains a.element)) ≠ [] →
      cfg.volume_method ≠ "ionic_radius" → cfg.volume_method ≠ "radius_of_gyration" →
      process_pdb_file_body cfg f =
        Except.error ("Unknown volume method: " ++ cfg.volume_method)) ∧
    (∀ (cfg : Config) (f : String) (pdb : PDBStruct),
      cfg.loader f = Except.ok pdb →
      (pdb.core_atoms.filter (fun a => cfg.target_elements.contains a.element)) ≠ [] →
      (∀ a ∈ pdb.core_atoms.filter (fun a => cfg.target_elements.contains a.element),
        (cfg.charges.lookup a.element).isSome) →
      cfg.volume_method = "radius_of_gyration" →
      cfg.shape_type ≠ "sphere" → cfg.shape_type ≠ "ellipsoid" →
      process_pdb_file_body cfg f =
        Except.error ("Unknown shape type: " ++ cfg.shape_type)) ∧
    (∀ (cfg : Config) (files : List String),
      cfg.volume_method ≠ "ionic_radius" → cfg.volume_method ≠ "radius_of_gyration" →
      (∀ f ∈ files, ∃ pdb, cfg.loader f = Except.ok pdb ∧
        (pdb.core_atoms.filter (fun a => cfg.target_elements.contains a.element)) ≠ []) →
      (analyze_clusters cfg files).records = [] ∧
      (analyze_clusters cfg files).error_log =
        files.map (fun f =>
          "Error processing file " ++ f ++ ": " ++
            ("Unknown volume method: " ++ cfg.volume_method))) := by
  have part1 : ∀ (cfg : Config) (f : String) (pdb : PDBStruct),
      cfg.loader f = Except.ok pdb →
      (pdb.core_atoms.filter (fun a => cfg.target_elements.contains a.element)) ≠ [] →
      cfg.volume_method ≠ "ionic_radius" → cfg.volume_method ≠ "radius_of_gyration" →
      process_pdb_file_body cfg f =
        Except.error ("Unknown volume method: " ++ cfg.volume_method) := by
    intro cfg f pdb hld hne hm1 hm2
    unfold process_pdb_file_body
    rw [hld, except_bind_ok, if_neg hne, if_neg hm1, if_neg hm2, except_bind_error]
  refine ⟨part1, ?_, ?_⟩
  · intro cfg f pdb hld hne hch hm hs1 hs2
    have hmok := mapM_charges_ok cfg.charges
      (pdb.core_atoms.filter (fun a => cfg.target_elements.contains a.element)) hch
    have hmne : cfg.volume_method ≠ "ionic_radius" := by rw [hm]; decide
    unfold process_pdb_file_body
    rw [hld, except_bind_ok, if_neg hne, if_neg hmne, if_pos hm, hmok, except_bind_ok,
      if_neg hs1, if_neg hs2, except_bind_error]
  · intro cfg files hm1 hm2 hfl
    have hcore : ∀ f ∈ files, process_pdb_file_body cfg f =
        Except.error ("Unknown volume method: " ++ cfg.volume_method) := by
      intro f hf
      obtain ⟨pdb, hld, hne⟩ := hfl f hf
      exact part1 cfg f pdb hld hne hm1 hm2
    constructor
    · simp only [analyze_clusters]
      rw [List.filterMap_eq_nil_iff]
      intro f hf
      rw [hcore f hf]
    · simp only [analyze_clusters]
      clear hfl
      induction files with
      | nil => rfl
      | cons f fs ih =>
        rw [List.filterMap_cons, hcore f (by simp), List.map_cons,
          ih (fun x hx => hcore x (by simp [hx]))]

/-- Witness for `unknown_configuration_handled_per_file`: the bogus-method
configuration loads `a.pdb` fine but its worker raises the unknown-method
error per file. -/
theorem unknown_configuration_handled_per_file_witness :
    cfgBogus.loader "a.pdb" = Except.ok pdbW ∧
    process_pdb_file_body cfgBogus "a.pdb" =
      Except.error ("Unknown volume method: " ++ cfgBogus.volume_method) := by
  have hld : cfgBogus.loader "a.pdb" = Except.ok pdbW := by
    simp [cfgBogus, cfgW, loaderW]
  refine ⟨hld, unknown_configuration_handled_per_file.1 cfgBogus "a.pdb" pdbW hld ?_ ?_ ?_⟩
  · simp [cfgBogus, cfgW, pdbW]
  · simp [cfgBogus, cfgW]
  · simp [cfgBogus, cfgW]

/-- **C2 counterexample.** With the unrecognized volume-method name `bogus`
and a single file that loads successfully with target atoms present, no
configuration error is raised before fan-out: the batch call completes
normally, and the unknown-method error is discovered inside the per-file
worker and handled there — logged with the file identifier while the file
contributes an empty result.  This refutes the claim that the error is
raised before any per-file fan-out begins and never handled per file. -/
theorem unknown_method_not_failfast_counterexample :
    (analyze_clusters cfgBogus ["a.pdb"]).records = [] ∧
    (analyze_clusters cfgBogus ["a.pdb"]).error_log =
      ["Error processing file a.pdb: Unknown volume method: bogus"] := by
  have hproc : process_pdb_file_body cfgBogus "a.pdb" =
      Except.error "Unknown volume method: bogus" := by
    simp [process_pdb_file_body, cfgBogus, cfgW, loaderW, pdbW, Bind.bind, Except.bind]
  constructor
  · simp [analyze_clusters, hproc]
  · simp [analyze_clusters, hproc]

/-- The accumulator form of the `estimate_total_molecular_volume` loop: the
total is the starting total plus count × volume over usable keys, and the
warnings are the starting warnings plus one per unusable key. -/
theorem estimate_loop_spec (radius_lookup : RadiusLookup)
    (items : List ((String × ℚ) × ℕ)) (acc : ℝ × List String) :
    items.foldl
      (fun acc kc =>
        match entry_volume radius_lookup kc.1 with
        | some v => (acc.1 + (kc.2 : ℝ) * v, acc.2)
        | none => (acc.1, acc.2 ++ [missing_entry_warning radius_lookup kc.1]))
      acc =
    (acc.1 + (items.map (fun kc =>
        match entry_volume radius_lookup kc.1 with
        | some v => (kc.2 : ℝ) * v
        | none => 0)).sum,
     acc.2 ++ items.filterMap (fun kc =>
        match entry_volume radius_lookup kc.1 with
        | some _ => none
        | none => some (missing_entry_warning radius_lookup kc.1))) := by
  induction items generalizing acc with
  | nil => simp
  | cons kc rest ih =>
    cases hv : entry_volume radius_lookup kc.1 with
    | some v =>
      rw [List.foldl_cons]
      simp only [hv, List.map_cons, List.filterMap_cons, List.sum_cons]
      rw [ih]
      simp [add_assoc]
    | none =>
      rw [List.foldl_cons]
      simp only [hv, List.map_cons, List.filterMap_cons, List.sum_cons]
      rw [ih]
      simp

/-- **C3 (amended).** With the ionic-radius volume method, a present
(element, charge) group whose radius-lookup entry is absent — or whose
entry's radius/volume is `None` — does **not** fail the file: the estimator
prints a warning naming the group and skips it, contributing zero to the
returned total, which is the sum over the usable groups only; the worker
then returns a normal (non-empty) record carrying this partial volume. -/
theorem ionic_volume_missing_entry_amended :
    (∀ (charges : Charges) (radius_lookup : RadiusLookup) (pdb : PDBStruct),
      (estimate_total_molecular_volume charges radius_lookup pdb).1 =
        ((element_counts charges pdb).map (fun kc =>
          match entry_volume radius_lookup kc.1 with
          | some v => (kc.2 : ℝ) * v
          | none => 0)).sum ∧
      (estimate_total_molecular_volume charges radius_lookup pdb).2 =
        (element_counts charges pdb).filterMap (fun kc =>
          match entry_volume radius_lookup kc.1 with
          | some _ => none
          | none => some (missing_entry_warning radius_lookup kc.1)) ∧
      (∀ kc ∈ element_counts charges pdb, entry_volume radius_lookup kc.1 = none →
        missing_entry_warning radius_lookup kc.1 ∈
          (estimate_total_molecular_volume charges radius_lookup pdb).2)) ∧
    (∀ (cfg : Config) (f : String) (pdb : PDBStruct),
      cfg.loader f = Except.ok pdb →
      (pdb.core_atoms.filter (fun a => cfg.target_elements.contains a.element)) ≠ [] →
      cfg.volume_method = "ionic_radius" →
      process_pdb_file_body cfg f = Except.ok (some
        { pdb_file := f,
          cluster_size :=
            (pdb.core_atoms.filter (fun a => cfg.target_elements.contains a.element)).length,
          coordination_stats := calculate_coordination_numbers cfg.coord
            (pdb.core_atoms ++ pdb.shell_atoms)
            (pdb.core_atoms.filter (fun a => cfg.target_elements.contains a.element)),
          volume := (estimate_total_molecular_volume cfg.charges cfg.radius_lookup pdb).1,
          charge := calculate_cluster_charge cfg.charges pdb })) := by
  have hloop : ∀ (charges : Charges) (radius_lookup : RadiusLookup) (pdb : PDBStruct),
      estimate_total_molecular_volume charges radius_lookup pdb =
      (((element_counts charges pdb).map (fun kc =>
          match entry_volume radius_lookup kc.1 with
          | some v => (kc.2 : ℝ) * v
          | none => 0)).sum,
       (element_counts charges pdb).filterMap (fun kc =>
          match entry_volume radius_lookup kc.1 with
          | some _ => none
          | none => some (missing_entry_warning radius_lookup kc.1))) := by
    intro charges radius_lookup pdb
    rw [estimate_total_molecular_volume, estimate_loop_spec]
    simp
  refine ⟨fun charges radius_lookup pdb => ?_, ?_⟩
  · refine ⟨by rw [hloop], by rw [hloop], ?_⟩
    intro kc hkc hnone
    rw [hloop]
    refine List.mem_filterMap.mpr ⟨kc, hkc, ?_⟩
    rw [hnone]
  · intro cfg f pdb hld hne hm
    unfold process_pdb_file_body
    rw [hld, except_bind_ok, if_neg hne, if_pos hm, except_bind_ok]

/-- **C3 counterexample.** A cluster holding an `A` atom (whose `(A, 2)`
lookup entry exists, with sphere volume (4/3)π) and a `B` atom (whose
`(B, 0)` key has no lookup entry at all): the ionic-radius volume computation
does not fail — it returns the partial total (4/3)π contributed by `A` alone,
with the missing `B` group silently contributing zero next to a printed
warning.  This refutes the claim that a missing group entry makes the file's
volume computation fail and the file yield an empty result. -/
theorem ionic_volume_silent_zero_counterexample :
    (estimate_total_molecular_volume chargesA3 lookupA3 pdbA3).1 = (4/3) * Real.pi ∧
    (estimate_total_molecular_volume chargesA3 lookupA3 pdbA3).2 =
      ["Warning: No radius found for B in lookup table."] := by
  have hcounts : element_counts chargesA3 pdbA3 = [(("A", 2), 1), (("B", 0), 1)] := by
    simp [element_counts, chargesA3, pdbA3, atom_key, dedupFirst, List.countP,
      List.countP.go, List.lookup]
  constructor
  · rw [estimate_total_molecular_volume, hcounts]
    norm_num [entry_volume, lookupEntry, lookupA3]
  · rw [estimate_total_molecular_volume, hcounts]
    simp [entry_volume, lookupEntry, missing_entry_warning, lookupA3]

/-- Witness for `ionic_volume_missing_entry_amended`, at the counterexample
fixture: the missing `(B, 0)` group's warning is indeed among the printed
warnings of a computation that returned normally. -/
theorem ionic_volume_missing_entry_amended_witness :
    (("B", (0:ℚ)), 1) ∈ element_counts chargesA3 pdbA3 ∧
    entry_volume lookupA3 ("B", 0) = none ∧
    missing_entry_warning lookupA3 ("B", 0) ∈
      (estimate_total_molecular_volume chargesA3 lookupA3 pdbA3).2 := by
  have hcounts : element_counts chargesA3 pdbA3 = [(("A", 2), 1), (("B", 0), 1)] := by
    simp [element_counts, chargesA3, pdbA3, atom_key, dedupFirst, List.countP,
      List.countP.go, List.lookup]
  have hmem : (("B", (0:ℚ)), 1) ∈ element_counts chargesA3 pdbA3 := by
    rw [hcounts]; simp
  have hnone : entry_volume lookupA3 ("B", 0) = none := by
    norm_num [entry_volume, lookupEntry, lookupA3]
  exact ⟨hmem, hnone,
    (ionic_volume_missing_entry_amended.1 chargesA3 lookupA3 pdbA3).2.2 _ hmem hnone⟩

theorem not_containsKey (key : String × ℚ) (lookup : RadiusLookup)
    (h : containsKey key lookup = false) : key ∉ lookup.map Prod.fst := by
  intro hmem
  obtain ⟨e, he, hek⟩ := List.mem_map.mp hmem
  have htrue : containsKey key lookup = true := by
    rw [containsKey, List.any_eq_true]
    exact ⟨e, he, by simp [hek]⟩
  rw [h] at htrue
  exact Bool.false_ne_true htrue

/-- Appending a fresh, well-formed binding preserves the radius-lookup
invariants. -/
theorem extend_lookup_invariant (lookup : RadiusLookup) (key : String × ℚ) (e : RLEntry)
    (hnd : (lookup.map Prod.fst).Nodup) (hck : containsKey key lookup = false)
    (hwf : ∀ x ∈ lookup, entry_wf x.2) (he : entry_wf e) :
    ((lookup ++ [(key, e)]).map Prod.fst).Nodup ∧
      ∀ x ∈ lookup ++ [(key, e)], entry_wf x.2 := by
  constructor
  · rw [List.map_append, List.nodup_append]
    refine ⟨hnd, by simp, ?_⟩
    intro a ha hb
    simp only [List.map_cons, List.map_nil, List.mem_cons, List.not_mem_nil, or_false] at hb
    exact not_containsKey key lookup hck (hb ▸ ha)
  · intro x hx
    rcases List.mem_append.mp hx with h | h
    · exact hwf x h
    · simp only [List.mem_cons, List.not_mem_nil, or_false] at h
      rw [h]
      exact he

/-- The loop of the radius-lookup builder preserves key uniqueness and entry
well-formedness. -/
theorem build_loop_invariant (ed : ElementData) (cs : Charges) :
    ∀ (lookup : RadiusLookup) (radii : List (Option ℚ))
      (res : RadiusLookup × List (Option ℚ)),
      (lookup.map Prod.fst).Nodup → (∀ e ∈ lookup, entry_wf e.2) →
      build_ionic_radius_lookup_loop ed cs lookup radii = Except.ok res →
      (res.1.map Prod.fst).Nodup ∧ ∀ e ∈ res.1, entry_wf e.2 := by
  induction cs with
  | nil =>
    intro lookup radii res hnd hwf h
    rw [build_ionic_radius_lookup_loop] at h
    simp only [Except.ok.injEq] at h
    rw [← h]
    exact ⟨hnd, hwf⟩
  | cons c rest ih =>
    intro lookup radii res hnd hwf h
    obtain ⟨atom_type, charge, coordination⟩ := c
    rw [build_ionic_radius_lookup_loop] at h
    cases hr : to_roman coordination with
    | none =>
      rw [hr] at h
      exact ih lookup radii res hnd hwf h
    | some roman_coordination =>
      rw [hr] at h
      simp only at h
      cases hck : containsKey (atom_type, charge) lookup with
      | true =>
        rw [hck] at h
        simp only [if_true] at h
        exact ih lookup radii res hnd hwf h
      | false =>
        rw [hck] at h
        simp only [Bool.false_eq_true, if_false] at h
        cases hfind : (ed.ionic_radii atom_type).find? (fun ir =>
            decide (ir.charge = charge) && decide (ir.coordination = roman_coordination)) with
        | some matching_radius =>
          rw [hfind] at h
          obtain ⟨hnd2, hwf2⟩ := extend_lookup_invariant lookup (atom_type, charge)
            { ionic_radius := some (matching_radius.ionic_radius / 100),
              volume := some ((4/3) * Real.pi *
                ((matching_radius.ionic_radius / 100 : ℚ) : ℝ) ^ 3) }
            hnd hck hwf (Or.inl ⟨matching_radius.ionic_radius / 100, rfl, rfl⟩)
          exact ih _ _ res hnd2 hwf2 h
        | none =>
          rw [hfind] at h
          cases hcov : ed.covalent_radius atom_type with
          | none =>
            rw [hcov] at h
            exact absurd h (by simp)
          | some cov =>
            rw [hcov] at h
            simp only at h
            by_cases hcz : (cov / 100 : ℚ) ≠ 0
            · rw [if_pos hcz] at h
              obtain ⟨hnd2, hwf2⟩ := extend_lookup_invariant lookup (atom_type, charge)
                { ionic_radius := some (cov / 100),
                  volume := some ((4/3) * Real.pi * ((cov / 100 : ℚ) : ℝ) ^ 3) }
                hnd hck hwf (Or.inl ⟨cov / 100, rfl, rfl⟩)
              exact ih _ _ res hnd2 hwf2 h
            · rw [if_neg hcz] at h
              obtain ⟨hnd2, hwf2⟩ := extend_lookup_invariant lookup (atom_type, charge)
                { ionic_radius := none, volume := none }
                hnd hck hwf (Or.inr ⟨rfl, rfl⟩)
              exact ih _ _ res hnd2 hwf2 h

/-- **C5 (amended).** The radius-lookup builder produces at most one entry per
(element, charge) key; every produced entry stores volume (4/3)π·r³ for its
stored radius `r`, or an explicitly absent radius/volume pair (never zero);
when no tabulated ionic radius exactly matches the charge and Roman-numeral
coordination label, the element's covalent radius is used — but when the
covalent-radius datum itself is missing, the builder raises a `TypeError`
(the source divides the absent value by 100 before its truthiness check)
instead of storing an absent entry; an absent entry is stored only when the
covalent value is zero. -/
theorem radius_lookup_builder_amended :
    (∀ (ed : ElementData) (charges : Charges) (res : RadiusLookup × List (Option ℚ)),
      build_ionic_radius_lookup ed charges = Except.ok res →
      (res.1.map Prod.fst).Nodup ∧ ∀ e ∈ res.1, entry_wf e.2) ∧
    (∀ (ed : ElementData) (atom_type : String) (charge : ℚ) (coordination : ℕ)
        (roman_coordination : String) (cov : ℚ),
      to_roman coordination = some roman_coordination →
      (ed.ionic_radii atom_type).find? (fun ir =>
        decide (ir.charge = charge) && decide (ir.coordination = roman_coordination)) = none →
      ed.covalent_radius atom_type = some cov → (cov / 100 : ℚ) ≠ 0 →
      build_ionic_radius_lookup ed [(atom_type, (charge, coordination))] =
        Except.ok ([((atom_type, charge),
          { ionic_radius := some (cov / 100),
            volume := some ((4/3) * Real.pi * ((cov / 100 : ℚ) : ℝ) ^ 3) })], [])) ∧
    (∀ (ed : ElementData) (atom_type : String) (charge : ℚ) (coordination : ℕ)
        (roman_coordination : String),
      to_roman coordination = some roman_coordination →
      (ed.ionic_radii atom_type).find? (fun ir =>
        decide (ir.charge = charge) && decide (ir.coordination = roman_coordination)) = none →
      ed.covalent_radius atom_type = none →
      build_ionic_radius_lookup ed [(atom_type, (charge, coordination))] =
        Except.error ("TypeError: unsupported operand type for NoneType division (covalent radius of "
          ++ atom_type ++ ")")) := by
  refine ⟨?_, ?_, ?_⟩
  · intro ed charges res h
    exact build_loop_invariant ed charges [] [] res (by simp) (by simp) h
  · intro ed atom_type charge coordination roman_coordination cov hroman hfind hcov hcz
    rw [build_ionic_radius_lookup, build_ionic_radius_lookup_loop, hroman]
    simp only [containsKey, List.any_nil, Bool.false_eq_true, if_false, hfind, hcov, if_pos hcz]
    rw [build_ionic_radius_lookup_loop]
    simp
  · intro ed atom_type charge coordination roman_coordination hroman hfind hcov
    rw [build_ionic_radius_lookup, build_ionic_radius_lookup_loop, hroman]
    simp only [containsKey, List.any_nil, Bool.false_eq_true, if_false, hfind, hcov]

/-- **C5 counterexample.** For a configured element with no tabulated ionic
radius and a *missing* covalent-radius datum, the builder does not store an
explicitly absent entry: the source computes `elem.covalent_radius / 100.0`
before testing it, which raises a `TypeError` on the absent (`None`) datum —
refuting the claim that when neither radius is available the entry is stored
with absent radius/volume. -/
theorem radius_lookup_missing_covalent_counterexample :
    build_ionic_radius_lookup edEmpty chargesXx =
      Except.error ("TypeError: unsupported operand type for NoneType division (covalent radius of "
        ++ "Xx" ++ ")") := by
  rw [build_ionic_radius_lookup, chargesXx, build_ionic_radius_lookup_loop]
  simp [to_roman, edEmpty, containsKey]

/-- Witness for `radius_lookup_builder_amended`: from a table knowing lead's
+2/VI ionic radius (119 pm), the builder produces the single well-formed
`lookupPb` entry with volume (4/3)π·(1.19)³. -/
theorem radius_lookup_builder_amended_witness :
    build_ionic_radius_lookup edW chargesPb =
      Except.ok ((lookupPb, [some (119 / 100)]) : RadiusLookup × List (Option ℚ)) ∧
    ((lookupPb.map Prod.fst).Nodup ∧ ∀ e ∈ lookupPb, entry_wf e.2) := by
  have hb : build_ionic_radius_lookup edW chargesPb =
      Except.ok ((lookupPb, [some (119 / 100)]) : RadiusLookup × List (Option ℚ)) := by
    rw [build_ionic_radius_lookup, chargesPb, build_ionic_radius_lookup_loop]
    simp only [to_roman, edW, lookupPb, containsKey, List.any_nil, Bool.false_eq_true,
      if_false, List.find?]
    norm_num [build_ionic_radius_lookup_loop]
  exact ⟨hb, radius_lookup_builder_amended.1 edW chargesPb _ hb⟩

/-- The modelled calculator's electron lookup succeeds on a list of
(element, charge) pairs whose elements are all known. -/
theorem mapM_electrons (ed : ElementData) (l : List (String × ℚ))
    (h : ∀ p ∈ l, (ed.electrons p.1).isSome) :
    l.mapM (fun ec =>
      match ed.electrons ec.1 with
      | some z => Except.ok ((z : ℚ) - ec.2)
      | none => Except.error ("NoSuchElementError: " ++ ec.1)) =
    Except.ok (l.map (fun ec => (((ed.electrons ec.1).getD 0 : ℤ) : ℚ) - ec.2)) := by
  induction l with
  | nil => rfl
  | cons p ps ih =>
    obtain ⟨z, hz⟩ := Option.isSome_iff_exists.mp (h p (by simp))
    rw [List.mapM_cons, ih (fun x hx => h x (by simp [hx]))]
    simp [hz, Bind.bind, Except.bind, Pure.pure, Except.pure]

/-- On the worker's target atoms, the modelled calculator's electron counts
evaluate to the per-atom weights (electron count minus formal charge). -/
theorem calculator_electron_counts_eval (cfg : Config) (ts : List Atom)
    (h : ∀ a ∈ ts, (cfg.elem_data.electrons a.element).isSome) :
    calculator_electron_counts cfg.elem_data (ts.map (fun a => a.element))
      (ts.map (fun a => ((cfg.charges.lookup a.element).getD (0, 0)).1)) =
    Except.ok (ts.map (atom_weight cfg)) := by
  unfold calculator_electron_counts
  rw [List.zip_map']
  rw [mapM_electrons cfg.elem_data _ ?hall]
  case hall =>
    intro p hp
    obtain ⟨a, ha, hap⟩ := List.mem_map.mp hp
    rw [← hap]
    exact h a ha
  rw [List.map_map]
  rfl

/-- `np.average(positions, axis=0, weights)` over mapped atom lists is the
componentwise weighted mean over the atoms. -/
theorem weighted_center_of_mass_map (ts : List Atom) (w : Atom → ℚ) :
    weighted_center_of_mass (ts.map (fun a => a.coordinates)) (ts.map w) =
      ((ts.map (fun b => w b * b.coordinates.1)).sum / (ts.map w).sum,
       (ts.map (fun b => w b * b.coordinates.2.1)).sum / (ts.map w).sum,
       (ts.map (fun b => w b * b.coordinates.2.2)).sum / (ts.map w).sum) := by
  unfold weighted_center_of_mass
  rw [List.zip_map']
  simp only [List.map_map]
  rfl

/-- The weighted mean squared displacement over mapped atom lists, written as
a single sum over the atoms. -/
theorem weighted_msd_map (ts : List Atom) (w : Atom → ℚ) :
    weighted_msd (ts.map (fun a => a.coordinates)) (ts.map w) =
      (ts.map (fun a => w a * distSq a.coordinates
        (weighted_center_of_mass (ts.map (fun b => b.coordinates)) (ts.map w)))).sum /
        (ts.map w).sum := by
  unfold weighted_msd
  rw [List.zip_map']
  simp only [List.map_map]
  rfl

/-- **C6 (confirmed; the decisive `RadiusOfGyrationCalculator` is modelled
from the spec).** With the radius-of-gyration sphere method, the worker
returns a record whose volume is (4/3)π·Rg³, where
Rg = sqrt( (Σ w·‖p−c‖²) / Σ w ), the weight of an atom is its element's
electron count minus its tabulated formal charge, `c` is the w-weighted
center of mass, and the sums range over the target atoms. -/
theorem rg_sphere_volume_formula (cfg : Config) (f : String) (pdb : PDBStruct)
    (hld : cfg.loader f = Except.ok pdb)
    (hm : cfg.volume_method = "radius_of_gyration")
    (hs : cfg.shape_type = "sphere")
    (hne : target_atoms_of cfg pdb ≠ [])
    (hch : ∀ a ∈ target_atoms_of cfg pdb, (cfg.charges.lookup a.element).isSome)
    (hel : ∀ a ∈ target_atoms_of cfg pdb, (cfg.elem_data.electrons a.element).isSome) :
    process_pdb_file_body cfg f = Except.ok (some
      { pdb_file := f,
        cluster_size := (target_atoms_of cfg pdb).length,
        coordination_stats := calculate_coordination_numbers cfg.coord
          (pdb.core_atoms ++ pdb.shell_atoms) (target_atoms_of cfg pdb),
        volume := rg_spec_volume cfg pdb,
        charge := calculate_cluster_charge cfg.charges pdb }) := by
  rw [target_atoms_of] at hne hch hel
  have hmne : cfg.volume_method ≠ "ionic_radius" := by rw [hm]; decide
  unfold process_pdb_file_body
  rw [hld, except_bind_ok, if_neg hne, if_neg hmne, if_pos hm,
    mapM_charges_ok cfg.charges _ hch, except_bind_ok, if_pos hs,
    rg_calculator_volume_sphere]
  have hec := calculator_electron_counts_eval cfg
    (pdb.core_atoms.filter (fun a => cfg.target_elements.contains a.element)) hel
  rw [hec, except_bind_ok, except_bind_ok]
  simp only [rg_spec_volume, target_atoms_of, calculate_radius_of_gyration,
    weighted_msd_map, weighted_center_of_mass_map]

/-- Witness for `rg_sphere_volume_formula`: the radius-of-gyration sphere
configuration over the two-lead-atom fixture. -/
theorem rg_sphere_volume_formula_witness :
    cfgRg.loader "x.pdb" = Except.ok pdbW ∧
    process_pdb_file_body cfgRg "x.pdb" = Except.ok (some
      { pdb_file := "x.pdb",
        cluster_size := (target_atoms_of cfgRg pdbW).length,
        coordination_stats := calculate_coordination_numbers cfgRg.coord
          (pdbW.core_atoms ++ pdbW.shell_atoms) (target_atoms_of cfgRg pdbW),
        volume := rg_spec_volume cfgRg pdbW,
        charge := calculate_cluster_charge cfgRg.charges pdbW }) := by
  have hld : cfgRg.loader "x.pdb" = Except.ok pdbW := by
    simp [cfgRg, cfgW, loaderW]
  refine ⟨hld, rg_sphere_volume_formula cfgRg "x.pdb" pdbW hld rfl rfl ?_ ?_ ?_⟩
  · simp [target_atoms_of, cfgRg, cfgW, pdbW]
  · intro a ha
    simp [target_atoms_of, cfgRg, cfgW, pdbW] at ha
    rcases ha with rfl | rfl <;> simp [cfgRg, cfgW, chargesW, List.lookup]
  · intro a ha
    simp [target_atoms_of, cfgRg, cfgW, pdbW] at ha
    rcases ha with rfl | rfl <;> simp [cfgRg, cfgW, edW]

/-- **C7 (confirmed).** The convex-hull estimator returns volume 0 with a
diagnostic — and no error, being a total function — whenever the cluster
holds 3 or fewer atom positions; with 4 or more atoms whose positions are
non-coplanar (affine span of the position set is all of ℝ³) it returns the
strictly positive geometric volume of the convex hull of all core+shell atom
positions. -/
theorem convex_hull_estimator (pdb : PDBStruct) :
    ((pdb.core_atoms ++ pdb.shell_atoms).length ≤ 3 →
      (calculate_cluster_volume pdb).1 = 0 ∧ (calculate_cluster_volume pdb).2 ≠ []) ∧
    (4 ≤ (pdb.core_atoms ++ pdb.shell_atoms).length →
      affineSpan ℝ (toR3 '' {p : Vec3 | p ∈ hull_points pdb}) = ⊤ →
      0 < (calculate_cluster_volume pdb).1 ∧
      (calculate_cluster_volume pdb).1 = hull_volume (hull_points pdb)) := by
  constructor
  · intro hlen
    have hlt : (pdb.core_atoms ++ pdb.shell_atoms).length < 4 := by omega
    rw [calculate_cluster_volume, if_pos hlt]
    exact ⟨rfl, by simp⟩
  · intro hlen hspan
    have hnlt : ¬ (pdb.core_atoms ++ pdb.shell_atoms).length < 4 := by omega
    rw [calculate_cluster_volume, if_neg hnlt]
    refine ⟨?_, rfl⟩
    rw [hull_volume]
    set S : Set (Fin 3 → ℝ) := toR3 '' {p : Vec3 | p ∈ hull_points pdb} with hS
    have hfin : S.Finite := (List.finite_toSet (hull_points pdb)).image toR3
    have hne : (interior (convexHull ℝ S)).Nonempty :=
      interior_convexHull_nonempty_iff_affineSpan_eq_top.mpr hspan
    have hpos : 0 < MeasureTheory.volume (interior (convexHull ℝ S)) :=
      IsOpen.measure_pos MeasureTheory.volume isOpen_interior hne
    have hmono : MeasureTheory.volume (interior (convexHull ℝ S)) ≤
        MeasureTheory.volume (convexHull ℝ S) :=
      MeasureTheory.measure_mono interior_subset
    have hcpt : IsCompact (convexHull ℝ S) := hfin.isCompact_convexHull
    have hlt : MeasureTheory.volume (convexHull ℝ S) < ⊤ := hcpt.measure_lt_top
    exact ENNReal.toReal_pos (ne_of_gt (lt_of_lt_of_le hpos hmono)) (ne_of_lt hlt)

/-- The unit tetrahedron's four positions affinely span ℝ³. -/
theorem tetra_span : affineSpan ℝ (toR3 '' {p : Vec3 | p ∈ hull_points pdbT}) = ⊤ := by
  have h0mem : toR3 (0, 0, 0) ∈ toR3 '' {p : Vec3 | p ∈ hull_points pdbT} :=
    ⟨(0, 0, 0), by simp [hull_points, pdbT], rfl⟩
  have hne : (toR3 '' {p : Vec3 | p ∈ hull_points pdbT}).Nonempty := ⟨toR3 (0, 0, 0), h0mem⟩
  rw [AffineSubspace.affineSpan_eq_top_iff_vectorSpan_eq_top_of_nonempty ℝ _ _ hne]
  have hsingle : ∀ i : Fin 3, (Pi.single i 1 : Fin 3 → ℝ) ∈
      (vectorSpan ℝ (toR3 '' {p : Vec3 | p ∈ hull_points pdbT}) : Set (Fin 3 → ℝ)) := by
    intro i
    have hi : i = 0 ∨ i = 1 ∨ i = 2 := by fin_cases i <;> simp
    rcases hi with rfl | rfl | rfl
    · have h : (Pi.single (0 : Fin 3) (1:ℝ)) = toR3 (1, 0, 0) -ᵥ toR3 (0, 0, 0) := by
        funext j; fin_cases j <;> simp [toR3, Pi.single_apply]
      rw [h]
      exact Submodule.subset_span (Set.vsub_mem_vsub
        ⟨(1, 0, 0), by simp [hull_points, pdbT], rfl⟩ h0mem)
    · have h : (Pi.single (1 : Fin 3) (1:ℝ)) = toR3 (0, 1, 0) -ᵥ toR3 (0, 0, 0) := by
        funext j; fin_cases j <;> simp [toR3, Pi.single_apply]
      rw [h]
      exact Submodule.subset_span (Set.vsub_mem_vsub
        ⟨(0, 1, 0), by simp [hull_points, pdbT], rfl⟩ h0mem)
    · have h : (Pi.single (2 : Fin 3) (1:ℝ)) = toR3 (0, 0, 1) -ᵥ toR3 (0, 0, 0) := by
        funext j; fin_cases j <;> simp [toR3, Pi.single_apply]
      rw [h]
      exact Submodule.subset_span (Set.vsub_mem_vsub
        ⟨(0, 0, 1), by simp [hull_points, pdbT], rfl⟩ h0mem)
  rw [eq_top_iff, ← (Pi.basisFun ℝ (Fin 3)).span_eq]
  apply Submodule.span_le.mpr
  rintro v ⟨i, rfl⟩
  have hs := hsingle i
  simpa [Pi.basisFun_apply] using hs

/-- Witness for `convex_hull_estimator`: the unit tetrahedron gets a strictly
positive hull volume; the single-atom cluster gets volume 0 with a
diagnostic. -/
theorem convex_hull_estimator_witness :
    (4 ≤ (pdbT.core_atoms ++ pdbT.shell_atoms).length ∧
      0 < (calculate_cluster_volume pdbT).1) ∧
    ((pdbSmall.core_atoms ++ pdbSmall.shell_atoms).length ≤ 3 ∧
      (calculate_cluster_volume pdbSmall).1 = 0 ∧
      (calculate_cluster_volume pdbSmall).2 ≠ []) := by
  constructor
  · have hlen : 4 ≤ (pdbT.core_atoms ++ pdbT.shell_atoms).length := by
      simp [pdbT]
    exact ⟨hlen, ((convex_hull_estimator pdbT).2 hlen tetra_span).1⟩
  · have hlen : (pdbSmall.core_atoms ++ pdbSmall.shell_atoms).length ≤ 3 := by
      simp [pdbSmall]
    exact ⟨hlen, (convex_hull_estimator pdbSmall).1 hlen⟩

theorem phi_sq : phi ^ 2 = phi + 1 := by
  have h5 : Real.sqrt 5 ^ 2 = 5 := Real.sq_sqrt (by norm_num)
  rw [phi]
  linear_combination (1/4) * h5

theorem phi_pos : 0 < phi := by
  rw [phi]
  have h : 0 ≤ Real.sqrt 5 := Real.sqrt_nonneg 5
  linarith

theorem phi_key : phi⁻¹ ^ 2 + phi ^ 2 = 3 := by
  have hne : phi ≠ 0 := ne_of_gt phi_pos
  field_simp
  linear_combination (phi ^ 2 + phi - 1) * phi_sq

/-- Every unnormalized golden-ratio vertex has norm √3. -/
theorem raw_vertices_norm (v : ℝ × ℝ × ℝ) (hv : v ∈ dodecahedron_raw_vertices) :
    norm3 v = Real.sqrt 3 := by
  have hA : (-1 / phi) ^ 2 + phi ^ 2 = 3 := by
    have h : (-1 / phi) ^ 2 = phi⁻¹ ^ 2 := by ring
    rw [h]
    exact phi_key
  have hB : (phi ^ 2)⁻¹ + phi ^ 2 = 3 := by
    rw [← inv_pow]
    exact phi_key
  simp only [dodecahedron_raw_vertices, List.mem_cons, List.not_mem_nil, or_false] at hv
  rcases hv with rfl | rfl | rfl | rfl | rfl | rfl | rfl | rfl | rfl | rfl | rfl | rfl |
    rfl | rfl | rfl | rfl | rfl | rfl | rfl | rfl <;>
    (rw [norm3]; congr 1) <;> ring_nf <;> linarith [hA, hB, phi_key]

theorem norm3_div_components (w : ℝ × ℝ × ℝ) (c : ℝ) (hc : 0 < c) :
    norm3 (w.1 / c, w.2.1 / c, w.2.2 / c) = norm3 w / c := by
  rw [norm3, norm3]
  have h : (w.1 / c) ^ 2 + (w.2.1 / c) ^ 2 + (w.2.2 / c) ^ 2 =
      (w.1 ^ 2 + w.2.1 ^ 2 + w.2.2 ^ 2) / c ^ 2 := by
    field_simp
  rw [h, Real.sqrt_div (by positivity), Real.sqrt_sq hc.le]

theorem norm3_smul3 (r : ℝ) (v : ℝ × ℝ × ℝ) (hr : 0 ≤ r) :
    norm3 (smul3 r v) = r * norm3 v := by
  rw [norm3, smul3, norm3]
  have h : (r * v.1) ^ 2 + (r * v.2.1) ^ 2 + (r * v.2.2) ^ 2 =
      r ^ 2 * (v.1 ^ 2 + v.2.1 ^ 2 + v.2.2 ^ 2) := by ring
  rw [h, Real.sqrt_mul (sq_nonneg r), Real.sqrt_sq hr]

/-- **C10 (confirmed).** All twenty unnormalized golden-ratio vertices share
the norm √3, so dividing the whole array by the norm of its first vertex
normalizes every row simultaneously: each generated dodecahedron vertex has
Euclidean norm exactly 1; consequently every surface point generated for an
atom by the outward-facing-point estimator lies at distance exactly the
atom's (nonnegative) radius from the atom's position. -/
theorem dodecahedron_unit_surface_points (position geometric_center : ℝ × ℝ × ℝ)
    (radius : ℝ) (hr : 0 ≤ radius) :
    (∀ v ∈ dodecahedron_raw_vertices, norm3 v = Real.sqrt 3) ∧
    (∀ v ∈ generate_dodecahedron_vertices, norm3 v = 1) ∧
    (∀ q ∈ generate_outward_facing_points position radius geometric_center,
      norm3 (sub3 q position) = radius) := by
  have hsqrt3_pos : (0:ℝ) < Real.sqrt 3 := Real.sqrt_pos.mpr (by norm_num)
  have hhead : (dodecahedron_raw_vertices.headD (0, 0, 0)) = ((-1 : ℝ), (-1 : ℝ), (-1 : ℝ)) := by
    rw [dodecahedron_raw_vertices]
    rfl
  have hn : norm3 (dodecahedron_raw_vertices.headD (0, 0, 0)) = Real.sqrt 3 := by
    rw [hhead]
    exact raw_vertices_norm _ (by rw [dodecahedron_raw_vertices]; simp)
  have hunit : ∀ v ∈ generate_dodecahedron_vertices, norm3 v = 1 := by
    intro v hv
    rw [generate_dodecahedron_vertices] at hv
    simp only [List.mem_map] at hv
    obtain ⟨w, hw, hwv⟩ := hv
    rw [← hwv, hn, norm3_div_components w (Real.sqrt 3) hsqrt3_pos,
      raw_vertices_norm w hw]
    exact div_self (ne_of_gt hsqrt3_pos)
  refine ⟨raw_vertices_norm, hunit, ?_⟩
  intro q hq
  rw [generate_outward_facing_points] at hq
  simp only [List.mem_map, List.mem_filter] at hq
  obtain ⟨v, ⟨hv, _⟩, hvq⟩ := hq
  have hsub : sub3 (add3 position (smul3 radius v)) position = smul3 radius v := by
    rw [sub3, add3, smul3]
    simp
  rw [← hvq, hsub, norm3_smul3 radius v hr, hunit v hv, mul_one]

/-- Witness for `dodecahedron_unit_surface_points`, at radius 2 for an atom
at (1, 2, 3) with the cluster's geometric center at the origin. -/
theorem dodecahedron_unit_surface_points_witness :
    (0:ℝ) ≤ 2 ∧
    ((∀ v ∈ dodecahedron_raw_vertices, norm3 v = Real.sqrt 3) ∧
     (∀ v ∈ generate_dodecahedron_vertices, norm3 v = 1) ∧
     (∀ q ∈ generate_outward_facing_points ((1:ℝ), (2:ℝ), (3:ℝ)) 2 ((0:ℝ), (0:ℝ), (0:ℝ)),
       norm3 (sub3 q ((1:ℝ), (2:ℝ), (3:ℝ))) = 2)) :=
  ⟨by norm_num,
    dodecahedron_unit_surface_points ((1:ℝ), (2:ℝ), (3:ℝ)) ((0:ℝ), (0:ℝ), (0:ℝ)) 2 (by norm_num)⟩

end MDScatter
